import Mathlib

/-!
Verification of the Verina conversational-research backend against its
natural-language specification.

The development shallowly embeds the parts of the Python source that the
claims under scrutiny touch:

* `src/chat/tools/file_edit.py` — single-occurrence find-and-replace
  (`FileEditTool.execute`), including Python's substring membership,
  non-overlapping occurrence count (`str.count`) and `str.replace`;
* `src/chat/tools/file_write.py` / `file_read.py` / `file_edit.py` — the
  workspace path-containment checks (`relative_to` vs `str.startswith`);
* `src/chat/manager.py` — `MessageManager` with its disk mirror;
* `src/chat/tools/compact_context.py` — the log rewrite performed by
  `CompactContextTool.execute` (the two nested LLM calls are oracle
  parameters: the digest and the confirmation text);
* `src/chat/agent/BaseAgent.py` — web-search source construction,
  tool execution result projection, ThinkingStep success derivation;
* `src/chat/agent/AgentModeAgent.py` / `ChatModeAgent.py` — the ReAct
  loops `agent_stream` and `chat_stream` as event-trace functions.

Python strings are `List Char`, machine-level I/O is assumed to succeed
(the Python code logs and swallows filesystem errors), and the LLM, the
web-search vendor and the tool side effects are oracle functions supplied
as parameters, so every theorem quantifies over all of their behaviours.
-/

/- ### Generic list text machinery (Python substring semantics) -/

/-- Boolean prefix test on lists (`list.startswith` / `Path.relative_to`
component test). -/
def isPre {α : Type} [BEq α] : List α → List α → Bool
  | [], _ => true
  | _ :: _, [] => false
  | a :: as, b :: bs => a == b && isPre as bs

/-- Python `sub in s`: some suffix of `s` starts with `sub`. -/
def containsSub {α : Type} [BEq α] (sub : List α) : List α → Bool
  | [] => isPre sub []
  | c :: rest => isPre sub (c :: rest) || containsSub sub rest

/-- Python `s.count(sub)`: the number of non-overlapping occurrences of
`sub` in `s`, scanning left to right (an empty `sub` matches at every gap,
so the count is `s.length + 1`). -/
def countOcc (sub : List Char) : List Char → Nat
  | [] => if isPre sub [] then 1 else 0
  | c :: rest =>
    if isPre sub (c :: rest) then
      1 + countOcc sub ((c :: rest).drop (max sub.length 1))
    else countOcc sub rest
termination_by s => s.length
decreasing_by
  all_goals simp only [List.length_drop, List.length_cons]
  all_goals omega

/-- Python `s.replace(sub, new)`: replace every non-overlapping occurrence
of `sub` left to right (an empty `sub` inserts `new` at every gap). -/
def pyReplace (sub new : List Char) : List Char → List Char
  | [] => if isPre sub [] then new else []
  | c :: rest =>
    if isPre sub (c :: rest) then
      if h : sub.isEmpty then new ++ c :: pyReplace sub new rest
      else new ++ pyReplace sub new ((c :: rest).drop sub.length)
    else c :: pyReplace sub new rest
termination_by s => s.length
decreasing_by
  · simp only [List.length_cons]
    omega
  · simp only [List.length_drop, List.length_cons]
    have hs : sub.length ≠ 0 := by
      simpa [List.isEmpty_iff, List.length_eq_zero] using h
    omega
  · simp only [List.length_cons]
    omega

/- ### file_edit (FileEditTool.execute, src/chat/tools/file_edit.py) -/

/-- Result of one `file_edit` call on an existing in-workspace file:
success flag and the file content after the call. -/
structure FileEditOutcome where
  success : Bool
  content : List Char
deriving DecidableEq

/-- `FileEditTool.execute` on an existing file inside the workspace:
fail if `old_text not in original_content`; fail as ambiguous if
`original_content.count(old_text) > 1`; else write
`original_content.replace(old_text, new_text)`. -/
def fileEditModel (content old new : List Char) : FileEditOutcome :=
  if containsSub old content = false then ⟨false, content⟩
  else if 1 < countOcc old content then ⟨false, content⟩
  else ⟨true, pyReplace old new content⟩

/- ### Workspace path containment (file_write.py, file_read.py, file_edit.py)

Absolute paths are lists of components below the filesystem root; symlinks
are not modelled (`Path.resolve` is `..` and `.` elimination here), which
is enough for every claim settled below. -/

/-- `Path.resolve` on an absolute path: drop `.`, let `..` pop one
component (at the root it stays at the root). -/
def resolveComps (comps : List String) : List String :=
  comps.foldl
    (fun acc c =>
      if c = "." then acc
      else if c = ".." then acc.dropLast
      else acc ++ [c])
    []

/-- A path argument as a tool receives it: either absolute or relative to
the workspace directory. -/
structure InPath where
  isAbs : Bool
  comps : List String
deriving DecidableEq

/-- The path the tool operates on before resolution: `workspace / p`
(Python `Path` join replaces the left operand when `p` is absolute, and
`file_edit` branches on `is_absolute()` to the same effect). -/
def effComps (ws : List String) (p : InPath) : List String :=
  if p.isAbs then p.comps else ws ++ p.comps

/-- `str(Path)` of an absolute path, as its character sequence:
a `/` before every component. -/
def pathStr (comps : List String) : List Char :=
  comps.foldl (fun acc c => acc ++ ('/' :: c.data)) []

/-- The containment test of `file_write._get_file_path` and
`file_read._get_file_path`: `file_path.resolve().relative_to(workspace.resolve())`
succeeds exactly when the resolved workspace is a component prefix of the
resolved target. -/
def fileWriteCheck (ws : List String) (p : InPath) : Bool :=
  isPre (resolveComps ws) (resolveComps (effComps ws p))

/-- The containment test of `FileEditTool.execute`:
`str(full_path.resolve()).startswith(str(workspace.resolve()))`. -/
def fileEditCheck (ws : List String) (p : InPath) : Bool :=
  isPre (pathStr (resolveComps ws)) (pathStr (resolveComps (effComps ws p)))

/-- The resolved filesystem target `file_write` (and `file_read`) touches:
`none` when the security check fails (the tool raises `ValueError` before
touching anything). -/
def fileWriteTarget (ws : List String) (p : InPath) : Option (List String) :=
  if fileWriteCheck ws p then some (resolveComps (effComps ws p)) else none

/-- The resolved filesystem target `file_edit` reads and writes: `none`
when its security check fails (the tool returns the security error before
touching anything). -/
def fileEditTarget (ws : List String) (p : InPath) : Option (List String) :=
  if fileEditCheck ws p then some (resolveComps (effComps ws p)) else none

/- ### Web-search source construction (BaseAgent._process_web_search_result
and AgentModeAgent._process_web_search_for_agent) -/

/-- One normalized result as `WebSearchTool.execute` returns it. -/
structure SearchResultR where
  url : String
  title : String
  snippet : String
  age : Option String
  cachePath : Option String
deriving DecidableEq

/-- One Source record as both agents build it for the frontend. -/
structure SourceR where
  idx : Nat
  url : String
  title : String
  snippet : String
  age : Option String
  cachePath : Option String
deriving DecidableEq

/-- The web-search result envelope consumed by the agents. -/
structure WebSearchResult where
  query : String
  searchType : String
  results : List SearchResultR
  error : Option String
deriving DecidableEq

/-- `for idx, r in enumerate(result["results"], 1)`: sources numbered
sequentially from `k`. -/
def buildSourcesFrom (k : Nat) : List SearchResultR → List SourceR
  | [] => []
  | r :: rest => ⟨k, r.url, r.title, r.snippet, r.age, r.cachePath⟩ :: buildSourcesFrom (k + 1) rest

/-- The Source list both `_process_web_search_result` (Chat Mode) and
`_process_web_search_for_agent` (Agent Mode) attach to the turn: empty on
a vendor error or an empty result list, else the results enumerated from
index 1. The two methods differ only in the text block rendered for the
model, which no claim below depends on. -/
def processWebSearchSources (w : WebSearchResult) : List SourceR :=
  if w.error.isSome || w.results.isEmpty then [] else buildSourcesFrom 1 w.results

/- ### Message log (MessageManager, src/chat/manager.py) -/

/-- One tool-call proposal record as stored in an assistant message. -/
structure ToolCallRec where
  id : String
  typ : String
  fname : String
  fargs : String
deriving DecidableEq

/-- One message of the Message Log (OpenAI function-calling shape). -/
structure LogMsg where
  role : String
  content : Option String
  toolCalls : Option (List ToolCallRec)
  toolCallId : Option String
deriving DecidableEq

/-- `MessageManager` state: the in-memory list and the parsed content of
`messages.json` on disk. Filesystem writes are assumed to succeed (the
Python `_save` logs and swallows I/O errors). -/
structure MMState where
  messages : List LogMsg
  disk : List LogMsg
deriving DecidableEq

/-- `MessageManager._save`: persist the in-memory messages. -/
def mmSave (st : MMState) : MMState :=
  { st with disk := st.messages }

/-- `MessageManager.add_system_message`. -/
def addSystemMessage (st : MMState) (c : String) : MMState :=
  mmSave { st with messages := st.messages ++ [⟨"system", some c, none, none⟩] }

/-- `MessageManager.add_user_message`. -/
def addUserMessage (st : MMState) (c : String) : MMState :=
  mmSave { st with messages := st.messages ++ [⟨"user", some c, none, none⟩] }

/-- `MessageManager.add_tool_result`. -/
def addToolResult (st : MMState) (id : String) (c : String) : MMState :=
  mmSave { st with messages := st.messages ++ [⟨"tool", some c, none, some id⟩] }

/-- Python truthiness of the optional `content` argument (`None` and the
empty string are falsy). -/
def contentTruthy : Option String → Bool
  | none => false
  | some s => !(s = "")

/-- Python truthiness of the optional `tool_calls` argument (`None` and
the empty list are falsy). -/
def tcTruthy : Option (List ToolCallRec) → Bool
  | none => false
  | some l => !l.isEmpty

/-- The proposal list carried by the optional `tool_calls` argument. -/
def tcList : Option (List ToolCallRec) → List ToolCallRec
  | none => []
  | some l => l

/-- `MessageManager.add_assistant_message`: raises when both arguments are
falsy; validates each proposal's type tag; stores `content` normalized to
`None` when falsy and attaches `tool_calls` only when non-empty. -/
def addAssistantMessage (st : MMState) (content : Option String)
    (toolCalls : Option (List ToolCallRec)) : Except String MMState :=
  if !contentTruthy content && !tcTruthy toolCalls then
    Except.error ("Assistant message must have either content or tool_calls")
  else if tcTruthy toolCalls
      && (tcList toolCalls).any (fun tc => !(tc.typ = "function")) then
    Except.error ("Tool call type must be a function tag")
  else
    Except.ok (mmSave { st with
      messages := st.messages ++
        [⟨"assistant",
          (if contentTruthy content then content else none),
          (if tcTruthy toolCalls then some (tcList toolCalls) else none),
          none⟩] })

/-- `MessageManager.clear`: filters the in-memory list; it does not call
`_save`, so the disk copy is left as it was. -/
def mmClear (st : MMState) (keepSystem : Bool) : MMState :=
  { st with messages :=
      if keepSystem then st.messages.filter (fun m => m.role == "system") else [] }

/- ### Context compaction (CompactContextTool.execute,
src/chat/tools/compact_context.py)

The nested summarization agent and the confirmation call are the oracle
parameters `digest` and `confirm`; the function below is the log rewrite
performed on success (step 10 of `execute`). -/

/-- The summary user message (step 8 of `execute`). -/
def summaryMsg (digest : String) : LogMsg :=
  ⟨"user",
    some ("📋 **[Context Summary - Previous Conversation]**\n\n" ++ digest ++
      "\n\n---\nPlease review the above summary and confirm your understanding of previous work."),
    none, none⟩

/-- The assistant confirmation message (step 9), with the fallback used
when the model returns empty text. -/
def confirmMsg (confirm : String) : LogMsg :=
  ⟨"assistant",
    some (if confirm = "" then
      "I understand the previous work and will continue from here."
    else confirm),
    none, none⟩

/-- The trailing `continue` user message appended after the recent tail. -/
def continueMsg : LogMsg :=
  ⟨"user", some ("Good. Please continue your work."), none, none⟩

/-- The reverse index scan of `execute` step 3: walk `i` down from
`msgs.length`, counting user messages; stop at the position of the `K`-th
user message from the end. Returns the user count reached and the split
index (`msgs.length` when fewer than `K` user messages exist). -/
def userSplitGo (msgs : List LogMsg) (K : Nat) : Nat → Nat → Nat × Nat
  | 0, cnt => (cnt, msgs.length)
  | i + 1, cnt =>
    if (msgs.getD i ⟨"", none, none, none⟩).role = "user" then
      if cnt + 1 = K then (cnt + 1, i) else userSplitGo msgs K i (cnt + 1)
    else userSplitGo msgs K i cnt

/-- The `(user_count, split_index)` pair of `execute` step 3. -/
def compactSplit (msgs : List LogMsg) (K : Nat) : Nat × Nat :=
  userSplitGo msgs K msgs.length 0

/-- The system messages of the log (`execute` step 2). -/
def compactSystem (msgs : List LogMsg) : List LogMsg :=
  msgs.filter (fun m => m.role = "system")

/-- The old span `all_messages[system_end:split_index]` (`execute` step 4). -/
def compactOld (msgs : List LogMsg) (K : Nat) : List LogMsg :=
  (msgs.take (compactSplit msgs K).2).drop (compactSystem msgs).length

/-- The kept suffix `all_messages[split_index:]` (`execute` step 4). -/
def compactRecent (msgs : List LogMsg) (K : Nat) : List LogMsg :=
  msgs.drop (compactSplit msgs K).2

/-- `CompactContextTool.execute` as a transformation of the Message Log:
the guards of steps 1-4 (too few messages, fewer than `K` user messages,
empty old span) leave the log unchanged; otherwise the log is rewritten to
`system + [summary, confirmation] + recent + [continue]` (step 10). -/
def compactContext (K : Nat) (digest confirm : String) (msgs : List LogMsg) :
    List LogMsg :=
  if msgs.length ≤ 3 then msgs
  else if (compactSplit msgs K).1 < K then msgs
  else if (compactOld msgs K).isEmpty then msgs
  else
    compactSystem msgs ++ [summaryMsg digest, confirmMsg confirm]
      ++ compactRecent msgs K ++ [continueMsg]

/- ### ThinkingStep success derivation (BaseAgent._create_thinking_step) -/

/-- The textual error test of `_create_thinking_step`: the output begins
with `Failed to`, or begins with `Tool execution failed`, or begins with
`Tool '` and also holds the substring `' not found`. -/
def isErrorOutput (out : List Char) : Bool :=
  isPre ("Failed to").data out
  || isPre ("Tool execution failed").data out
  || (isPre ("Tool '").data out && containsSub ("' not found").data out)

/-- The ThinkingStep `success` flag: `not is_error`. -/
def thinkingSuccess (out : List Char) : Bool :=
  !isErrorOutput out

/- ### The ReAct loops (ChatModeAgent.chat_stream and
AgentModeAgent.agent_stream) as event-trace functions

The model, the per-call JSON argument parse and each tool execution are
oracles indexed by the iteration or the global step counter, so every
theorem about a run quantifies over all model and tool behaviours. The
message-log appends performed by the loops are not tracked: the model
oracle is indexed by the iteration number, and no branch of either loop
reads the log other than through the model call, so they do not influence
the event trace. Likewise the workspace side effects (template seeding,
cleanup, draft/notes reads for the blog prompt) are assumed to succeed;
the session is assumed to carry a workspace directory, as every session
created through `ChatService` does. -/

/-- One tool-call proposal as the loop sees it: the identifier, the tool
name, and the outcome of `json.loads` on its argument string (`some e`
when parsing raised `JSONDecodeError` with message `e`). -/
structure ToolCallM where
  id : String
  name : String
  argErr : Option String
deriving DecidableEq

/-- The message part of one model response. An empty `toolCalls` list is
Python's falsy `tool_calls` (absent or empty). -/
structure ModelMsg where
  reasoning : String
  content : String
  toolCalls : List ToolCallM
  promptTokens : Nat
deriving DecidableEq

/-- Outcome of one `llm_provider.chat` call: a response or an exception. -/
inductive LlmResult where
  | ok (m : ModelMsg)
  | exn (e : String)
deriving DecidableEq

/-- Outcome of one `tool.execute` call, already projected to the text the
loop stores (web-search formatting, MCP envelope projection and JSON
dumping are inside the ok text): either that text or an exception. -/
inductive ExecOutcome where
  | ok (text : String)
  | exn (e : String)
deriving DecidableEq

/-- One ThinkingStep as emitted and as collected into the response. -/
structure ThinkingRec where
  step : Nat
  tool : String
  output : String
  success : Bool
deriving DecidableEq

/-- The events a turn emits (the payload parts the claims depend on). -/
inductive AgEvent where
  | stageSwitch (stage : String)
  | thinkingStep (t : ThinkingRec)
  | cancelled (stage : Option String)
  | errorEv (msg : String)
  | completeEv (assistantMessage : String) (artifactAttached : Bool)
      (steps : List ThinkingRec)
deriving DecidableEq

/-- The terminal events of the stream protocol. -/
def isTerminal : AgEvent → Bool
  | .cancelled _ => true
  | .errorEv _ => true
  | .completeEv _ _ _ => true
  | _ => false

/-- How many terminal events a trace holds. -/
def terminalCount (evs : List AgEvent) : Nat :=
  (evs.filter isTerminal).length

/-- Configuration and oracles of one `agent_stream` turn. -/
structure AgentCfg where
  maxIterations : Nat
  e2b : Bool
  mcpTools : List String
  cancel : Nat → Bool
  llm : Nat → LlmResult
  finalLlm : LlmResult
  execO : Nat → ExecOutcome

/-- The HIL-stage registry (`tools_hil`). -/
def hilRegistry : List String :=
  [("web_search"), ("start_research")]

/-- The Research-stage registry (`tools_research` plus the MCP tools
loaded at the stage switch). -/
def researchRegistry (cfg : AgentCfg) : List String :=
  [("web_search"), ("stop_answer"), ("compact_context")]
    ++ (if cfg.e2b then [("execute_python")] else [])
    ++ [("file_read"), ("file_write"), ("file_list"), ("research_assistant")]
    ++ cfg.mcpTools

/-- `self.tools` for the current stage of `AgentModeAgent`. -/
def registryFor (cfg : AgentCfg) (stage : String) : List String :=
  if stage = "research" then researchRegistry cfg else hilRegistry

/-- `_execute_tool` projected to the stored result text: argument-parse
failure, unknown tool, exception inside the tool, or the post-processed
result text. -/
def toolResultText (reg : List String) (execO : Nat → ExecOutcome) (ctr : Nat)
    (tc : ToolCallM) : String :=
  match tc.argErr with
  | some e => "Failed to parse tool arguments: " ++ e
  | none =>
    if !(reg.contains tc.name) then
      "Tool '" ++ tc.name ++ "' not found"
    else
      match execO ctr with
      | .ok t => t
      | .exn e => "Tool execution failed: " ++ e

/-- The per-proposal body of the normal-tools branch: step counter
increment, execution, ThinkingStep creation and emission, in list order.
Returns the emitted events, the ThinkingSteps appended to the response,
and the new step counter. -/
def processBatch (reg : List String) (execO : Nat → ExecOutcome) :
    List ToolCallM → Nat → List AgEvent × List ThinkingRec × Nat
  | [], ctr => ([], [], ctr)
  | tc :: rest, ctr =>
    let out := toolResultText reg execO (ctr + 1) tc
    let tr : ThinkingRec := ⟨ctr + 1, tc.name, out, thinkingSuccess out.data⟩
    let r := processBatch reg execO rest (ctr + 1)
    (AgEvent.thinkingStep tr :: r.1, tr :: r.2.1, r.2.2)

/-- The message of the `error` event emitted when a control tool is
proposed in the stage whose registry does not hold it: `tools.get`
returns `None` and `None.execute()` raises `AttributeError`, caught by
the iteration-level handler. -/
def pyNoneExecuteError : String :=
  "Error during processing: 'NoneType' object has no attribute 'execute'"

/-- How the iteration loop of `agent_stream` ended. -/
inductive AgOutcome where
  | cancelledO
  | readyO
  | maxedO
  | doneO
deriving DecidableEq

/-- The `while iteration < max_iterations` loop of `agent_stream`,
structural in the remaining iteration budget. Returns the events emitted
inside the loop, the collected ThinkingSteps, the stage on exit, and how
the loop ended (`doneO`: the generator already returned after emitting a
terminal event). -/
def agentLoop (cfg : AgentCfg) :
    Nat → String → Nat → List ThinkingRec → Nat →
    List AgEvent × List ThinkingRec × String × AgOutcome
  | 0, stage, _, steps, _ => ([], steps, stage, .maxedO)
  | fuel + 1, stage, iter, steps, ctr =>
    if cfg.cancel iter then
      let stageReset := if stage = "research" then "hil" else stage
      ([.cancelled (some stageReset)], steps, stageReset, .cancelledO)
    else
      match cfg.llm iter with
      | .exn e =>
        ([.errorEv ("Error during processing: " ++ e)], steps, stage, .doneO)
      | .ok m =>
        if m.toolCalls.isEmpty then
          if stage = "hil" then
            let fr :=
              if !(m.content = "") then m.content
              else if !(m.reasoning = "") then m.reasoning
              else "I need more information to provide an answer."
            ([.completeEv fr false steps], steps, stage, .doneO)
          else
            agentLoop cfg fuel stage (iter + 1) steps ctr
        else
          if m.toolCalls.any (fun tc => tc.name == "start_research") then
            if stage = "hil" then
              let r := agentLoop cfg fuel ("research") (iter + 1) steps ctr
              (AgEvent.stageSwitch ("research") :: r.1, r.2)
            else
              ([.errorEv pyNoneExecuteError], steps, stage, .doneO)
          else if m.toolCalls.any (fun tc => tc.name == "stop_answer") then
            if stage = "research" then
              ([], steps, stage, .readyO)
            else
              ([.errorEv pyNoneExecuteError], steps, stage, .doneO)
          else
            let b := processBatch (registryFor cfg stage) cfg.execO m.toolCalls ctr
            let r := agentLoop cfg fuel stage (iter + 1) (steps ++ b.2.1) b.2.2
            (b.1 ++ r.1, r.2)

/- ### Artifact extraction (agent_stream lines 891-941) -/

/-- The gate literal: the exact, case-sensitive doctype substring. -/
def doctypeCS : List Char := ("<!DOCTYPE html>").data

/-- Case-insensitive containment, as the regular expressions with
`re.IGNORECASE` see text. -/
def ciContainsSub (sub s : List Char) : Bool :=
  containsSub (sub.map Char.toLower) (s.map Char.toLower)

/-- Whether the case-insensitive pattern `<!DOCTYPE html>.*?</html>`
matches: a case-insensitive doctype occurrence followed by a
case-insensitive `</html>`. A match of the fenced pattern
(the triple-backtick-html block tried first) contains such a span, so this
is also whether either `re.search` attempt succeeds. -/
def bareHtmlMatch : List Char → Bool
  | [] => false
  | c :: rest =>
    if isPre (doctypeCS.map Char.toLower) ((c :: rest).map Char.toLower) then
      ciContainsSub ("</html>").data ((c :: rest).drop doctypeCS.length)
    else bareHtmlMatch rest

/-- Index of the first case-insensitive occurrence of `sub` (the start of
the bare-pattern match). -/
def ciFindIdx (sub : List Char) : List Char → Option Nat
  | [] => none
  | c :: rest =>
    if isPre (sub.map Char.toLower) ((c :: rest).map Char.toLower) then some 0
    else (ciFindIdx sub rest).map (fun n => n + 1)

/-- Python `str.strip()`: drop leading and trailing whitespace. -/
def stripChars (s : List Char) : List Char :=
  ((s.dropWhile Char.isWhitespace).reverse.dropWhile Char.isWhitespace).reverse

/-- The overview text of the extracted-artifact case: the text before the
match, stripped, with the code-fence markers removed, falling back to the
fixed notice when empty. -/
def overviewOrDefault (finalResponse : String) : String :=
  let start := (ciFindIdx doctypeCS finalResponse.data).getD 0
  let before := stripChars (finalResponse.data.take start)
  let cleaned := stripChars (pyReplace ("```").data [] (pyReplace ("```html").data [] before))
  if cleaned.isEmpty then "Research completed. See interactive report below."
  else String.mk cleaned

/-- The artifact block of `agent_stream`: reached only with
`ready_for_final_answer`; extraction is attempted only when the final text
holds the exact case-sensitive `<!DOCTYPE html>` substring, and attaches
an artifact when one of the two regular expressions matches. Returns
whether an artifact is attached and the `assistant_message` (left as the
full final text when no artifact is extracted; the claims below do not
constrain the overview text of the extracted case). -/
def extractArtifact (finalResponse : String) : Bool × String :=
  if containsSub doctypeCS finalResponse.data then
    if bareHtmlMatch finalResponse.data then
      (true, overviewOrDefault finalResponse)
    else (false, finalResponse)
  else (false, finalResponse)

/-- The full run result of one turn: the events the generator emitted, and
whether the generator escaped with an exception instead of returning
(the final-answer model call is inside the outer `try` which has only a
`finally`, so an exception there propagates out of the generator). -/
structure RunResult where
  events : List AgEvent
  raised : Bool
deriving DecidableEq

/-- The code after the `while` loop of `agent_stream`: the final-answer
call when `stop_answer` broke the loop, the maxed-out message when the
loop was exhausted or cancelled, artifact extraction, and the closing
`complete` event. -/
def agentFinalPhase (cfg : AgentCfg) (evs : List AgEvent)
    (steps : List ThinkingRec) : AgOutcome → RunResult
  | .doneO => ⟨evs, false⟩
  | .cancelledO =>
    ⟨evs ++ [.completeEv ("I need more iterations to complete this request.") false steps],
      false⟩
  | .maxedO =>
    ⟨evs ++ [.completeEv ("I need more iterations to complete this request.") false steps],
      false⟩
  | .readyO =>
    match cfg.finalLlm with
    | .exn _ => ⟨evs, true⟩
    | .ok m =>
      let ex := extractArtifact m.content
      ⟨evs ++ [.completeEv ex.2 ex.1 steps], false⟩

/-- One full `agent_stream` turn. -/
def agentRun (cfg : AgentCfg) : RunResult :=
  let r := agentLoop cfg cfg.maxIterations ("hil") 1 [] 0
  agentFinalPhase cfg r.1 r.2.1 r.2.2.2

/-- Configuration and oracles of one `chat_stream` turn. -/
structure ChatCfg where
  maxIterations : Nat
  e2b : Bool
  mcpTools : List String
  cancel : Nat → Bool
  llm : Nat → LlmResult
  execO : Nat → ExecOutcome

/-- The Chat Mode registry (`_initialize_tools` of `ChatModeAgent`). -/
def chatRegistry (cfg : ChatCfg) : List String :=
  [("web_search")]
    ++ (if cfg.e2b then [("execute_python")] else [])
    ++ [("file_read")]
    ++ cfg.mcpTools

/-- The `while` loop of `chat_stream`. Returns emitted events, collected
ThinkingSteps, the value of `final_response` on exit, and whether the
generator already returned after an `error` event. -/
def chatLoop (cfg : ChatCfg) :
    Nat → Nat → List ThinkingRec → Nat →
    List AgEvent × List ThinkingRec × String × Bool
  | 0, _, steps, _ => ([], steps, "", false)
  | fuel + 1, iter, steps, ctr =>
    if cfg.cancel iter then
      ([.cancelled none], steps, "Response stopped by user.", false)
    else
      match cfg.llm iter with
      | .exn e =>
        ([.errorEv ("Error during processing: " ++ e)], steps, "", true)
      | .ok m =>
        if m.toolCalls.isEmpty then
          let fr :=
            if !(m.content = "") then m.content
            else "I don't have a response at this time."
          ([], steps, fr, false)
        else
          let b := processBatch (chatRegistry cfg) cfg.execO m.toolCalls ctr
          let r := chatLoop cfg fuel (iter + 1) (steps ++ b.2.1) b.2.2
          (b.1 ++ r.1, r.2)

/-- One full `chat_stream` turn: unless the loop already ended the
generator with an `error` event, the turn closes with a `complete` event
carrying `final_response` (which is still the empty string when the
iteration budget ran out with tool calls every time). -/
def chatRun (cfg : ChatCfg) : RunResult :=
  let r := chatLoop cfg cfg.maxIterations 1 [] 0
  if r.2.2.2 then ⟨r.1, false⟩
  else ⟨r.1 ++ [.completeEv r.2.2.1 false r.2.1], false⟩

/- ### Lemma section: Python substring semantics -/

theorem isPre_iff {α : Type} [BEq α] [LawfulBEq α] (p s : List α) :
    isPre p s = true ↔ ∃ t, s = p ++ t := by
  induction p generalizing s with
  | nil => simp [isPre]
  | cons a as ih =>
    cases s with
    | nil => simp [isPre]
    | cons b bs =>
      simp only [isPre, Bool.and_eq_true, beq_iff_eq, ih, List.cons_append,
        List.cons.injEq]
      constructor
      · rintro ⟨rfl, t, rfl⟩
        exact ⟨t, rfl, rfl⟩
      · rintro ⟨t, rfl, rfl⟩
        exact ⟨rfl, t, rfl⟩

theorem containsSub_iff {α : Type} [BEq α] [LawfulBEq α] (sub s : List α) :
    containsSub sub s = true ↔ ∃ a b, s = a ++ sub ++ b := by
  induction s with
  | nil =>
    simp only [containsSub, isPre_iff]
    constructor
    · rintro ⟨t, ht⟩
      exact ⟨[], t, by simpa using ht⟩
    · rintro ⟨a, b, h⟩
      rcases List.append_eq_nil.mp (List.append_eq_nil.mp h.symm).1 with ⟨rfl, rfl⟩
      exact ⟨b, h⟩
  | cons c rest ih =>
    simp only [containsSub, Bool.or_eq_true, isPre_iff, ih]
    constructor
    · rintro (⟨t, ht⟩ | ⟨a, b, rfl⟩)
      · exact ⟨[], t, by simpa using ht⟩
      · exact ⟨c :: a, b, rfl⟩
    · rintro ⟨a, b, h⟩
      cases a with
      | nil => exact Or.inl ⟨b, by simpa using h⟩
      | cons a0 as =>
        rcases List.cons.injEq .. ▸ h with ⟨rfl, hrest⟩
        exact Or.inr ⟨as, b, by simpa using hrest⟩

theorem countOcc_pos_of_isPre {sub s : List Char} (h : isPre sub s = true) :
    1 ≤ countOcc sub s := by
  cases s with
  | nil =>
    rw [countOcc, if_pos h]
  | cons c rest =>
    rw [countOcc, if_pos h]
    omega

theorem countOcc_eq_zero_iff (sub s : List Char) :
    countOcc sub s = 0 ↔ containsSub sub s = false := by
  induction s with
  | nil =>
    rw [countOcc]
    cases hb : isPre sub [] <;> simp [containsSub, hb]
  | cons c rest ih =>
    rw [countOcc]
    cases hb : isPre sub (c :: rest) <;> simp [containsSub, hb, ih]

theorem pyReplace_of_countOcc_zero {sub s : List Char} (new : List Char)
    (h : countOcc sub s = 0) : pyReplace sub new s = s := by
  induction s with
  | nil =>
    rw [countOcc] at h
    rw [pyReplace]
    cases hb : isPre sub []
    · simp [hb]
    · rw [hb] at h
      simp at h
  | cons c rest ih =>
    rw [countOcc] at h
    rw [pyReplace]
    cases hb : isPre sub (c :: rest)
    · rw [hb] at h
      simp only [Bool.false_eq_true, if_false] at h ⊢
      rw [ih h]
    · rw [hb] at h
      simp at h

theorem countOcc_nil_sub_pos (s : List Char) : 1 ≤ countOcc [] s := by
  apply countOcc_pos_of_isPre
  cases s <;> rfl

theorem countOcc_one_split {sub s : List Char} (new : List Char)
    (h : countOcc sub s = 1) :
    ∃ pre suf, s = pre ++ sub ++ suf ∧
      pyReplace sub new s = pre ++ new ++ suf := by
  induction s with
  | nil =>
    rw [countOcc] at h
    by_cases hp : isPre sub [] = true
    · rcases (isPre_iff sub []).mp hp with ⟨t, ht⟩
      rcases List.append_eq_nil.mp ht.symm with ⟨rfl, rfl⟩
      refine ⟨[], [], rfl, ?_⟩
      rw [pyReplace, if_pos hp]
      simp
    · rw [if_neg hp] at h
      omega
  | cons c rest ih =>
    by_cases hp : isPre sub (c :: rest) = true
    · cases hsub : sub with
      | nil =>
        subst hsub
        rw [countOcc, if_pos hp] at h
        have := countOcc_nil_sub_pos ((c :: rest).drop (max ([] : List Char).length 1))
        omega
      | cons s0 ss =>
        subst hsub
        rcases (isPre_iff _ _).mp hp with ⟨t, ht⟩
        rw [countOcc, if_pos hp] at h
        have hmax : max (s0 :: ss).length 1 = (s0 :: ss).length := by
          simp
        rw [hmax, ht, List.drop_left] at h
        have hzero : countOcc (s0 :: ss) t = 0 := by omega
        refine ⟨[], t, by simpa using ht, ?_⟩
        rw [pyReplace, if_pos hp]
        have hne : ¬ (((s0 :: ss) : List Char).isEmpty = true) := by simp
        rw [dif_neg hne, ht, List.drop_left, pyReplace_of_countOcc_zero new hzero]
        simp
    · rw [countOcc, if_neg hp] at h
      rcases ih h with ⟨pre, suf, hsplit, hrep⟩
      refine ⟨c :: pre, suf, by simp [hsplit], ?_⟩
      rw [pyReplace, if_neg hp, hrep]
      simp

/- ### Claim theorems -/

/-- C7: for every `file_edit` invocation on an existing workspace file,
zero occurrences of `old_text` fail and leave the file unchanged, two or
more occurrences fail as ambiguous and leave the file unchanged, and
exactly one occurrence succeeds with that single occurrence replaced by
`new_text` (occurrences counted as Python `str.count` counts them). -/
theorem fileEdit_occurrence_semantics (content old new : List Char) :
    (countOcc old content = 0 → fileEditModel content old new = ⟨false, content⟩)
    ∧ (2 ≤ countOcc old content → fileEditModel content old new = ⟨false, content⟩)
    ∧ (countOcc old content = 1 →
        (fileEditModel content old new).success = true ∧
        ∃ pre suf, content = pre ++ old ++ suf ∧
          (fileEditModel content old new).content = pre ++ new ++ suf) := by
  refine ⟨?_, ?_, ?_⟩
  · intro h
    have hc : containsSub old content = false := (countOcc_eq_zero_iff _ _).mp h
    simp [fileEditModel, hc]
  · intro h
    by_cases hc : containsSub old content = false
    · simp [fileEditModel, hc]
    · rw [fileEditModel, if_neg hc, if_pos (by omega)]
  · intro h
    have hc : ¬ (containsSub old content = false) := by
      intro hcf
      have := (countOcc_eq_zero_iff old content).mpr hcf
      omega
    have hlt : ¬ (1 < countOcc old content) := by omega
    rcases countOcc_one_split new h with ⟨pre, suf, h1, h2⟩
    exact ⟨by rw [fileEditModel, if_neg hc, if_neg hlt],
      pre, suf, h1, by rw [fileEditModel, if_neg hc, if_neg hlt]; exact h2⟩

/-- Witness for C7: the three branches at concrete inputs. -/
theorem fileEdit_occurrence_semantics_witness :
    (fileEditModel ("abc").data ("zz").data ("y").data = ⟨false, ("abc").data⟩)
    ∧ (fileEditModel ("abab").data ("ab").data ("y").data = ⟨false, ("abab").data⟩)
    ∧ ((fileEditModel ("aXc").data ("X").data ("YY").data).success = true ∧
        ∃ pre suf, ("aXc").data = pre ++ ("X").data ++ suf ∧
          (fileEditModel ("aXc").data ("X").data ("YY").data).content
            = pre ++ ("YY").data ++ suf) :=
  ⟨(fileEdit_occurrence_semantics ("abc").data ("zz").data ("y").data).1
      (by simp [countOcc]; decide),
   (fileEdit_occurrence_semantics ("abab").data ("ab").data ("y").data).2.1
      (by simp [countOcc]; decide),
   (fileEdit_occurrence_semantics ("aXc").data ("X").data ("YY").data).2.2
      (by simp [countOcc]; decide)⟩

/-- C2 counterexample: `file_edit`'s `str(...).startswith(str(...))`
security check accepts a relative path whose resolution lands in the
sibling directory `workspace_agent_evil`, because the resolved path
string extends the workspace root string; the operation then reads and
writes that out-of-root target. -/
theorem fileEdit_containment_counterexample :
    fileEditTarget [("data"), ("chats"), ("s1"), ("workspace_agent")]
        ⟨false, [(".."), ("workspace_agent_evil"), ("secret.md")]⟩
      = some [("data"), ("chats"), ("s1"), ("workspace_agent_evil"), ("secret.md")]
    ∧ isPre (resolveComps [("data"), ("chats"), ("s1"), ("workspace_agent")])
        [("data"), ("chats"), ("s1"), ("workspace_agent_evil"), ("secret.md")] = false := by
  constructor
  · decide
  · decide

/-- C2 amended: `file_read` and `file_write` do enforce containment — a
target is touched only when the resolved workspace root is a component
prefix of the resolved path, and a failed check touches nothing; for
`file_edit` a failed check also touches nothing, but its check is the
string-prefix comparison refuted above. -/
theorem workspace_containment_amended :
    (∀ ws p t, fileWriteTarget ws p = some t → isPre (resolveComps ws) t = true)
    ∧ (∀ ws p, fileWriteCheck ws p = false → fileWriteTarget ws p = none)
    ∧ (∀ ws p, fileEditCheck ws p = false → fileEditTarget ws p = none) := by
  refine ⟨?_, ?_, ?_⟩
  · intro ws p t h
    by_cases hc : fileWriteCheck ws p
    · rw [fileWriteTarget, if_pos hc] at h
      cases h
      exact hc
    · rw [fileWriteTarget, if_neg hc] at h
      cases h
  · intro ws p h
    rw [fileWriteTarget, if_neg (by simp [h])]
  · intro ws p h
    rw [fileEditTarget, if_neg (by simp [h])]

/-- Witness for the C2 amended theorem at concrete inputs. -/
theorem workspace_containment_amended_witness :
    isPre (resolveComps [("ws")]) (resolveComps (effComps [("ws")] ⟨false, [("a.md")]⟩)) = true
    ∧ fileWriteTarget [("ws")] ⟨false, [(".."), ("b.md")]⟩ = none
    ∧ fileEditTarget [("ws")] ⟨true, [("etc"), ("passwd")]⟩ = none := by
  refine ⟨?_, ?_, ?_⟩
  · exact workspace_containment_amended.1 [("ws")] ⟨false, [("a.md")]⟩ _ (by decide)
  · exact workspace_containment_amended.2.1 [("ws")] ⟨false, [(".."), ("b.md")]⟩ (by decide)
  · exact workspace_containment_amended.2.2 [("ws")] ⟨true, [("etc"), ("passwd")]⟩ (by decide)

theorem buildSourcesFrom_map_idx (rs : List SearchResultR) : ∀ k,
    (buildSourcesFrom k rs).map SourceR.idx = List.range' k rs.length := by
  induction rs with
  | nil => intro k; rfl
  | cons r rest ih =>
    intro k
    simp [buildSourcesFrom, List.range'_succ, ih]

theorem buildSourcesFrom_map_url (rs : List SearchResultR) : ∀ k,
    (buildSourcesFrom k rs).map SourceR.url = rs.map SearchResultR.url := by
  induction rs with
  | nil => intro k; rfl
  | cons r rest ih =>
    intro k
    simp [buildSourcesFrom, ih]

/-- C4 counterexample: the agents perform no URL deduplication — when the
search vendor returns the same URL twice in one result list, the Source
list of that turn indexes it twice. -/
theorem sources_duplicate_url_counterexample :
    (processWebSearchSources
        ⟨"q", "auto",
          [⟨"https://x.example", "t1", "", none, none⟩,
           ⟨"https://x.example", "t2", "", none, none⟩], none⟩).map SourceR.url
      = [("https://x.example"), ("https://x.example")]
    ∧ ¬ ((processWebSearchSources
        ⟨"q", "auto",
          [⟨"https://x.example", "t1", "", none, none⟩,
           ⟨"https://x.example", "t2", "", none, none⟩], none⟩).map SourceR.url).Nodup := by
  constructor
  · rfl
  · decide

/-- C4 amended: on a successful non-empty search, source indices are
exactly the dense sequence `1, 2, …, M` in result order, and the source
URLs are exactly the result URLs in order — so they are pairwise distinct
exactly when the vendor's result URLs are, the code adding no
deduplication of its own. -/
theorem sources_dense_urls_amended (w : WebSearchResult)
    (h1 : w.error = none) (h2 : w.results ≠ []) :
    (processWebSearchSources w).map SourceR.idx = List.range' 1 w.results.length
    ∧ (processWebSearchSources w).map SourceR.url = w.results.map SearchResultR.url := by
  have hg : ¬ (w.error.isSome || w.results.isEmpty) = true := by
    simp [h1, List.isEmpty_iff, h2]
  rw [processWebSearchSources, if_neg hg]
  exact ⟨buildSourcesFrom_map_idx w.results 1, buildSourcesFrom_map_url w.results 1⟩

/-- Witness for the C4 amended theorem at a concrete search result. -/
theorem sources_dense_urls_amended_witness :
    (processWebSearchSources
        ⟨"q", "auto", [⟨"https://a", "ta", "s", none, none⟩,
          ⟨"https://b", "tb", "s", none, some "cache/tb.md"⟩], none⟩).map SourceR.idx
      = [1, 2]
    ∧ (processWebSearchSources
        ⟨"q", "auto", [⟨"https://a", "ta", "s", none, none⟩,
          ⟨"https://b", "tb", "s", none, some "cache/tb.md"⟩], none⟩).map SourceR.url
      = [("https://a"), ("https://b")] := by
  have h := sources_dense_urls_amended
    ⟨"q", "auto", [⟨"https://a", "ta", "s", none, none⟩,
      ⟨"https://b", "tb", "s", none, some "cache/tb.md"⟩], none⟩
    rfl (by decide)
  exact ⟨by rw [h.1]; rfl, by rw [h.2]; rfl⟩

/-- C6 counterexample: `MessageManager.clear` mutates only the in-memory
list — it never calls `_save`, so after a `clear` the persisted
`messages.json` content differs from the in-memory message list. -/
theorem messageLog_clear_not_flushed_counterexample :
    (mmClear (addUserMessage ⟨[], []⟩ ("hi")) true).messages = []
    ∧ (mmClear (addUserMessage ⟨[], []⟩ ("hi")) true).disk
        = [⟨"user", some ("hi"), none, none⟩]
    ∧ (mmClear (addUserMessage ⟨[], []⟩ ("hi")) true).messages
        ≠ (mmClear (addUserMessage ⟨[], []⟩ ("hi")) true).disk := by
  refine ⟨rfl, rfl, ?_⟩
  decide

/-- C6 amended: the four append mutators flush the log to disk before
returning, so on return the persisted file equals the in-memory list;
`clear` however mutates memory only and leaves the persisted file as it
was. -/
theorem messageLog_flush_amended (st : MMState) (c : String) :
    ((addSystemMessage st c).disk = (addSystemMessage st c).messages)
    ∧ ((addUserMessage st c).disk = (addUserMessage st c).messages)
    ∧ (∀ id, (addToolResult st id c).disk = (addToolResult st id c).messages)
    ∧ (∀ content toolCalls st', addAssistantMessage st content toolCalls = .ok st' →
        st'.disk = st'.messages)
    ∧ (∀ keepSystem, (mmClear st keepSystem).disk = st.disk) := by
  refine ⟨rfl, rfl, fun id => rfl, ?_, fun keepSystem => rfl⟩
  intro content toolCalls st' h
  rw [addAssistantMessage] at h
  by_cases h1 : (!contentTruthy content && !tcTruthy toolCalls) = true
  · rw [if_pos h1] at h
    cases h
  · rw [if_neg h1] at h
    by_cases h2 : (tcTruthy toolCalls
        && (tcList toolCalls).any (fun tc => !(tc.typ = "function"))) = true
    · rw [if_pos h2] at h
      cases h
    · rw [if_neg h2] at h
      cases h
      rfl

/-- Witness for the C6 amended theorem at a concrete state. -/
theorem messageLog_flush_amended_witness :
    ((addToolResult ⟨[], []⟩ ("t1") ("r")).disk
      = (addToolResult ⟨[], []⟩ ("t1") ("r")).messages)
    ∧ ((⟨[⟨"assistant", some ("ok"), none, none⟩],
          [⟨"assistant", some ("ok"), none, none⟩]⟩ : MMState).disk
        = (⟨[⟨"assistant", some ("ok"), none, none⟩],
          [⟨"assistant", some ("ok"), none, none⟩]⟩ : MMState).messages) :=
  ⟨(messageLog_flush_amended ⟨[], []⟩ ("r")).2.2.1 ("t1"),
   (messageLog_flush_amended ⟨[], []⟩ ("r")).2.2.2.1 (some ("ok")) none
      ⟨[⟨"assistant", some ("ok"), none, none⟩],
        [⟨"assistant", some ("ok"), none, none⟩]⟩ (by rfl)⟩

theorem terminalCount_append (a b : List AgEvent) :
    terminalCount (a ++ b) = terminalCount a + terminalCount b := by
  simp [terminalCount, List.filter_append]

theorem processBatch_terminalCount (reg : List String) (execO : Nat → ExecOutcome) :
    ∀ (tcs : List ToolCallM) (ctr : Nat),
      terminalCount (processBatch reg execO tcs ctr).1 = 0 := by
  intro tcs
  induction tcs with
  | nil => intro ctr; rfl
  | cons tc rest ih =>
    intro ctr
    simp [processBatch, terminalCount, List.filter_cons, isTerminal] at ih ⊢
    exact ih (ctr + 1)

/-- Under a run where the cancel flag is never set and every model
response proposes at least one tool call, none of them a control tool, the
agent loop consumes its whole budget: it exits with `maxedO` and emits no
terminal event inside the loop. -/
theorem agentLoop_normal_maxed (cfg : AgentCfg)
    (hcancel : ∀ i, cfg.cancel i = false)
    (hllm : ∀ i, ∃ m, cfg.llm i = .ok m ∧ m.toolCalls ≠ []
        ∧ m.toolCalls.all
            (fun tc => !(tc.name == "start_research") && !(tc.name == "stop_answer")) = true) :
    ∀ fuel stage iter steps ctr,
      (agentLoop cfg fuel stage iter steps ctr).2.2.2 = .maxedO
      ∧ terminalCount (agentLoop cfg fuel stage iter steps ctr).1 = 0 := by
  intro fuel
  induction fuel with
  | zero =>
    intro stage iter steps ctr
    exact ⟨rfl, rfl⟩
  | succ n ih =>
    intro stage iter steps ctr
    rcases hllm iter with ⟨m, hm, hne, hctl⟩
    have hemp : m.toolCalls.isEmpty = false := by
      simpa [List.isEmpty_iff] using hne
    have hstart : m.toolCalls.any (fun tc => tc.name == "start_research") = false := by
      rw [List.any_eq_false]
      intro tc htc
      have := (List.all_eq_true.mp hctl) tc htc
      simp only [Bool.and_eq_true, Bool.not_eq_true'] at this
      simp [this.1]
    have hstop : m.toolCalls.any (fun tc => tc.name == "stop_answer") = false := by
      rw [List.any_eq_false]
      intro tc htc
      have := (List.all_eq_true.mp hctl) tc htc
      simp only [Bool.and_eq_true, Bool.not_eq_true'] at this
      simp [this.2]
    rw [agentLoop]
    rw [hcancel iter, hm]
    simp only [Bool.false_eq_true, if_false, hemp, hstart, hstop]
    rcases ih stage (iter + 1)
        (steps ++ (processBatch (registryFor cfg stage) cfg.execO m.toolCalls ctr).2.1)
        (processBatch (registryFor cfg stage) cfg.execO m.toolCalls ctr).2.2 with ⟨h1, h2⟩
    refine ⟨h1, ?_⟩
    rw [terminalCount_append, h2, processBatch_terminalCount]

/-- The chat loop under the same conditions: the budget runs out with
`final_response` still the empty string, no error return and no terminal
event inside the loop. -/
theorem chatLoop_normal_maxed (cfg : ChatCfg)
    (hcancel : ∀ i, cfg.cancel i = false)
    (hllm : ∀ i, ∃ m, cfg.llm i = .ok m ∧ m.toolCalls ≠ []) :
    ∀ fuel iter steps ctr,
      (chatLoop cfg fuel iter steps ctr).2.2.1 = ""
      ∧ (chatLoop cfg fuel iter steps ctr).2.2.2 = false
      ∧ terminalCount (chatLoop cfg fuel iter steps ctr).1 = 0 := by
  intro fuel
  induction fuel with
  | zero =>
    intro iter steps ctr
    exact ⟨rfl, rfl, rfl⟩
  | succ n ih =>
    intro iter steps ctr
    rcases hllm iter with ⟨m, hm, hne⟩
    have hemp : m.toolCalls.isEmpty = false := by
      simpa [List.isEmpty_iff] using hne
    rw [chatLoop]
    rw [hcancel iter, hm]
    simp only [Bool.false_eq_true, if_false, hemp]
    rcases ih (iter + 1)
        (steps ++ (processBatch (chatRegistry cfg) cfg.execO m.toolCalls ctr).2.1)
        (processBatch (chatRegistry cfg) cfg.execO m.toolCalls ctr).2.2 with ⟨h1, h2, h3⟩
    refine ⟨h1, h2, ?_⟩
    rw [terminalCount_append, h3, processBatch_terminalCount]

/-- C1 (evidence of the code bug at the failing input): with the cancel
flag set when the turn starts, `agent_stream` emits a `cancelled` event
and then, falling through the post-loop code, also a `complete` envelope
whose assistant message is the maxed-out text; `chat_stream` likewise
emits `cancelled` followed by a `complete` envelope. Each trace holds two
terminal events where the claim requires exactly one. -/
theorem cancel_double_terminal_event :
    (agentRun ⟨5, false, [], fun _ => true, fun _ => .exn "", .exn "", fun _ => .exn ""⟩).events
      = [.cancelled (some ("hil")),
         .completeEv ("I need more iterations to complete this request.") false []]
    ∧ terminalCount
        (agentRun ⟨5, false, [], fun _ => true, fun _ => .exn "", .exn "", fun _ => .exn ""⟩).events
      = 2
    ∧ (chatRun ⟨5, false, [], fun _ => true, fun _ => .exn "", fun _ => .exn ""⟩).events
      = [.cancelled none, .completeEv ("Response stopped by user.") false []]
    ∧ terminalCount
        (chatRun ⟨5, false, [], fun _ => true, fun _ => .exn "", fun _ => .exn ""⟩).events
      = 2 :=
  ⟨rfl, rfl, rfl, rfl⟩

/-- C5 counterexample: in Chat Mode a turn that runs its whole iteration
budget proposing a tool call every time still ends with a `complete`
event, but its assistant message is the empty string, not the maxed-out
note. -/
theorem chat_max_iterations_empty_message_counterexample :
    (chatRun ⟨1, false, [], fun _ => false,
        fun _ => .ok ⟨"", "", [⟨"c1", "web_search", none⟩], 0⟩,
        fun _ => .ok "results"⟩).events
      = [.thinkingStep ⟨1, "web_search", "results", true⟩,
         .completeEv "" false [⟨1, "web_search", "results", true⟩]]
    ∧ ("" : String) ≠ "I need more iterations to complete this request." :=
  ⟨rfl, by decide⟩

/-- C5 amended: when the React loop exhausts `MAX_ITERATIONS` without
`stop_answer` (the model proposing only normal tools every iteration and
no cancellation), Agent Mode ends the turn with a single `complete` event
whose assistant message is the maxed-out note, while Chat Mode ends it
with a single `complete` event whose assistant message is the empty
string. -/
theorem react_max_iterations_amended (acfg : AgentCfg) (ccfg : ChatCfg)
    (hA1 : ∀ i, acfg.cancel i = false)
    (hA2 : ∀ i, ∃ m, acfg.llm i = .ok m ∧ m.toolCalls ≠ []
        ∧ m.toolCalls.all
            (fun tc => !(tc.name == "start_research") && !(tc.name == "stop_answer")) = true)
    (hC1 : ∀ i, ccfg.cancel i = false)
    (hC2 : ∀ i, ∃ m, ccfg.llm i = .ok m ∧ m.toolCalls ≠ []) :
    (∃ evs steps, (agentRun acfg).events
        = evs ++ [.completeEv ("I need more iterations to complete this request.") false steps]
      ∧ terminalCount (agentRun acfg).events = 1)
    ∧ (∃ evs steps, (chatRun ccfg).events = evs ++ [.completeEv "" false steps]
      ∧ terminalCount (chatRun ccfg).events = 1) := by
  constructor
  · rcases agentLoop_normal_maxed acfg hA1 hA2 acfg.maxIterations ("hil") 1 [] 0 with ⟨h1, h2⟩
    refine ⟨(agentLoop acfg acfg.maxIterations ("hil") 1 [] 0).1,
      (agentLoop acfg acfg.maxIterations ("hil") 1 [] 0).2.1, ?_, ?_⟩
    · rw [agentRun, h1]
      rfl
    · rw [agentRun, h1]
      show terminalCount ((agentLoop acfg acfg.maxIterations ("hil") 1 [] 0).1 ++ _) = 1
      rw [terminalCount_append, h2]
      rfl
  · rcases chatLoop_normal_maxed ccfg hC1 hC2 ccfg.maxIterations 1 [] 0 with ⟨h1, h2, h3⟩
    refine ⟨(chatLoop ccfg ccfg.maxIterations 1 [] 0).1,
      (chatLoop ccfg ccfg.maxIterations 1 [] 0).2.1, ?_, ?_⟩
    · rw [chatRun, h2, h1]
      rfl
    · rw [chatRun, h2, h1]
      show terminalCount ((chatLoop ccfg ccfg.maxIterations 1 [] 0).1 ++ _) = 1
      rw [terminalCount_append, h3]
      rfl

/-- Witness for the C5 amended theorem at concrete runs. -/
theorem react_max_iterations_amended_witness :
    ((∃ evs steps, (agentRun ⟨1, false, [], fun _ => false,
          fun _ => .ok ⟨"", "", [⟨"a", "web_search", none⟩], 0⟩,
          .exn "", fun _ => .ok "r"⟩).events
        = evs ++ [.completeEv ("I need more iterations to complete this request.") false steps]
      ∧ terminalCount (agentRun ⟨1, false, [], fun _ => false,
          fun _ => .ok ⟨"", "", [⟨"a", "web_search", none⟩], 0⟩,
          .exn "", fun _ => .ok "r"⟩).events = 1)
    ∧ (∃ evs steps, (chatRun ⟨1, false, [], fun _ => false,
          fun _ => .ok ⟨"", "", [⟨"a", "web_search", none⟩], 0⟩,
          fun _ => .ok "r"⟩).events = evs ++ [.completeEv "" false steps]
      ∧ terminalCount (chatRun ⟨1, false, [], fun _ => false,
          fun _ => .ok ⟨"", "", [⟨"a", "web_search", none⟩], 0⟩,
          fun _ => .ok "r"⟩).events = 1)) :=
  react_max_iterations_amended
    ⟨1, false, [], fun _ => false,
      fun _ => .ok ⟨"", "", [⟨"a", "web_search", none⟩], 0⟩, .exn "", fun _ => .ok "r"⟩
    ⟨1, false, [], fun _ => false,
      fun _ => .ok ⟨"", "", [⟨"a", "web_search", none⟩], 0⟩, fun _ => .ok "r"⟩
    (fun _ => rfl)
    (fun _ => ⟨⟨"", "", [⟨"a", "web_search", none⟩], 0⟩, rfl, by decide, by decide⟩)
    (fun _ => rfl)
    (fun _ => ⟨⟨"", "", [⟨"a", "web_search", none⟩], 0⟩, rfl, by decide⟩)

theorem isPre_extend {α : Type} [BEq α] [LawfulBEq α] {p s : List α} (t : List α)
    (h : isPre p s = true) : isPre p (s ++ t) = true := by
  rcases (isPre_iff p s).mp h with ⟨u, rfl⟩
  exact (isPre_iff p (p ++ u ++ t)).mpr ⟨u ++ t, by simp⟩

/-- C8: the ThinkingStep success flag is false exactly when the tool
result text begins with `Tool execution failed`, begins with `Failed to`,
or begins with `Tool '` and holds `' not found`; a proposal whose
arguments fail JSON parsing produces the result
`Failed to parse tool arguments: …` with `success = false`; and such a
failure does not end the turn — the loop continues and the turn closes
normally. -/
theorem thinkingStep_success_derivation :
    (∀ out : List Char, thinkingSuccess out = false ↔
        ((∃ r, out = ("Tool execution failed").data ++ r)
          ∨ (∃ r, out = ("Failed to").data ++ r)
          ∨ ((∃ r, out = ("Tool '").data ++ r)
              ∧ ∃ a b, out = a ++ ("' not found").data ++ b)))
    ∧ (∀ (reg : List String) (execO : Nat → ExecOutcome) (ctr : Nat)
          (tc : ToolCallM) (e : String), tc.argErr = some e →
        toolResultText reg execO ctr tc = "Failed to parse tool arguments: " ++ e
        ∧ thinkingSuccess (toolResultText reg execO ctr tc).data = false)
    ∧ ((chatRun ⟨2, false, [], fun _ => false,
          fun i => if i = 1
            then .ok ⟨"", "", [⟨"c1", "web_search", some ("Expecting value")⟩], 0⟩
            else .ok ⟨"", "done", [], 0⟩,
          fun _ => .ok "unused"⟩).events
        = [.thinkingStep ⟨1, "web_search",
              ("Failed to parse tool arguments: Expecting value"), false⟩,
           .completeEv ("done") false
             [⟨1, "web_search", ("Failed to parse tool arguments: Expecting value"), false⟩]]) := by
  refine ⟨?_, ?_, rfl⟩
  · intro out
    rw [thinkingSuccess, Bool.not_eq_false']
    rw [isErrorOutput]
    simp only [Bool.or_eq_true, Bool.and_eq_true, isPre_iff, containsSub_iff]
    tauto
  · intro reg execO ctr tc e he
    have hr : toolResultText reg execO ctr tc = "Failed to parse tool arguments: " ++ e := by
      rw [toolResultText, he]
    refine ⟨hr, ?_⟩
    rw [hr, thinkingSuccess, Bool.not_eq_false']
    rw [isErrorOutput]
    have hpre : isPre ("Failed to").data (("Failed to parse tool arguments: " ++ e)).data = true := by
      rw [String.data_append]
      exact isPre_extend e.data (by decide)
    simp only [Bool.or_eq_true]
    exact Or.inl (Or.inl (by simpa using hpre))

/-- Witness for C8 at a concrete malformed-argument tool call. -/
theorem thinkingStep_success_derivation_witness :
    toolResultText [("web_search")] (fun _ => .ok "x") 1 ⟨"c1", "web_search", some ("bad")⟩
      = "Failed to parse tool arguments: bad"
    ∧ thinkingSuccess
        (toolResultText [("web_search")] (fun _ => .ok "x") 1
          ⟨"c1", "web_search", some ("bad")⟩).data = false :=
  thinkingStep_success_derivation.2.1 [("web_search")] (fun _ => .ok "x") 1
    ⟨"c1", "web_search", some ("bad")⟩ ("bad") rfl

/-- C9 counterexample: a control proposal in the stage whose registry
does not hold the control tool does not take effect as a stage switch or
an exit into the final-answer phase — `tools.get` yields `None`, the
`AttributeError` aborts the turn with an `error` event. Here the second
response proposes `start_research` (already in Research stage) together
with a `web_search`: the other proposal is indeed discarded without a
ThinkingStep, but the turn ends in `error`. -/
theorem control_tool_wrong_stage_counterexample :
    (agentRun ⟨5, false, [], fun _ => false,
        fun i => if i = 1 then .ok ⟨"", "", [⟨"a", "start_research", none⟩], 0⟩
          else .ok ⟨"", "", [⟨"b", "start_research", none⟩, ⟨"c", "web_search", none⟩], 0⟩,
        .exn "unused", fun _ => .ok "unused"⟩).events
      = [.stageSwitch ("research"), .errorEv pyNoneExecuteError]
    ∧ terminalCount (agentRun ⟨5, false, [], fun _ => false,
        fun i => if i = 1 then .ok ⟨"", "", [⟨"a", "start_research", none⟩], 0⟩
          else .ok ⟨"", "", [⟨"b", "start_research", none⟩, ⟨"c", "web_search", none⟩], 0⟩,
        .exn "unused", fun _ => .ok "unused"⟩).events = 1 :=
  ⟨rfl, rfl⟩

/-- C9 amended: when the control proposal matches the current stage, it
alone takes effect and every other proposal of the same response is
discarded without execution and without a ThinkingStep: a response
containing `start_research` in HIL stage emits exactly the `stage_switch`
event and continues in Research stage with the step counter untouched,
and a response containing `stop_answer` (and no `start_research`) in
Research stage emits nothing and exits the loop into the final-answer
phase; a control proposal in the mismatched stage instead aborts the turn
with an `error` event (still discarding the other proposals). -/
theorem control_tool_precedence_amended (cfg : AgentCfg) (fuel iter ctr : Nat)
    (steps : List ThinkingRec) (m : ModelMsg)
    (hc : cfg.cancel iter = false) (hm : cfg.llm iter = .ok m)
    (hne : m.toolCalls ≠ []) :
    (m.toolCalls.any (fun tc => tc.name == "start_research") = true →
      agentLoop cfg (fuel + 1) ("hil") iter steps ctr
        = (AgEvent.stageSwitch ("research")
              :: (agentLoop cfg fuel ("research") (iter + 1) steps ctr).1,
           (agentLoop cfg fuel ("research") (iter + 1) steps ctr).2))
    ∧ (m.toolCalls.any (fun tc => tc.name == "start_research") = false →
       m.toolCalls.any (fun tc => tc.name == "stop_answer") = true →
      agentLoop cfg (fuel + 1) ("research") iter steps ctr
        = ([], steps, ("research"), .readyO))
    ∧ (m.toolCalls.any (fun tc => tc.name == "start_research") = true →
      agentLoop cfg (fuel + 1) ("research") iter steps ctr
        = ([.errorEv pyNoneExecuteError], steps, ("research"), .doneO)) := by
  have hemp : m.toolCalls.isEmpty = false := by
    simpa [List.isEmpty_iff] using hne
  refine ⟨?_, ?_, ?_⟩
  · intro hstart
    rw [agentLoop, hc, hm]
    simp [hemp, hstart]
  · intro hstart hstop
    rw [agentLoop, hc, hm]
    simp [hemp, hstart, hstop]
  · intro hstart
    rw [agentLoop, hc, hm]
    simp [hemp, hstart]

/-- Witness for the C9 amended theorem at concrete responses. -/
theorem control_tool_precedence_amended_witness :
    (agentLoop ⟨3, false, [], fun _ => false,
        fun _ => .ok ⟨"", "", [⟨"a", "start_research", none⟩, ⟨"b", "web_search", none⟩], 0⟩,
        .exn "u", fun _ => .ok "u"⟩ 2 ("hil") 1 [] 0
      = (AgEvent.stageSwitch ("research")
            :: (agentLoop ⟨3, false, [], fun _ => false,
                fun _ => .ok ⟨"", "", [⟨"a", "start_research", none⟩, ⟨"b", "web_search", none⟩], 0⟩,
                .exn "u", fun _ => .ok "u"⟩ 1 ("research") 2 [] 0).1,
          (agentLoop ⟨3, false, [], fun _ => false,
              fun _ => .ok ⟨"", "", [⟨"a", "start_research", none⟩, ⟨"b", "web_search", none⟩], 0⟩,
              .exn "u", fun _ => .ok "u"⟩ 1 ("research") 2 [] 0).2))
    ∧ (agentLoop ⟨3, false, [], fun _ => false,
        fun _ => .ok ⟨"", "", [⟨"s", "stop_answer", none⟩, ⟨"b", "web_search", none⟩], 0⟩,
        .exn "u", fun _ => .ok "u"⟩ 2 ("research") 1 [] 0
      = ([], [], ("research"), .readyO)) :=
  ⟨(control_tool_precedence_amended
      ⟨3, false, [], fun _ => false,
        fun _ => .ok ⟨"", "", [⟨"a", "start_research", none⟩, ⟨"b", "web_search", none⟩], 0⟩,
        .exn "u", fun _ => .ok "u"⟩ 1 1 0 []
      ⟨"", "", [⟨"a", "start_research", none⟩, ⟨"b", "web_search", none⟩], 0⟩
      rfl rfl (by decide)).1 (by decide),
   (control_tool_precedence_amended
      ⟨3, false, [], fun _ => false,
        fun _ => .ok ⟨"", "", [⟨"s", "stop_answer", none⟩, ⟨"b", "web_search", none⟩], 0⟩,
        .exn "u", fun _ => .ok "u"⟩ 1 1 0 []
      ⟨"", "", [⟨"s", "stop_answer", none⟩, ⟨"b", "web_search", none⟩], 0⟩
      rfl rfl (by decide)).2.1 (by decide) (by decide)⟩

/-- C10: the Agent/Research final-answer phase attaches an Artifact only
when the final model text holds the exact case-sensitive substring
`<!DOCTYPE html>`; a document whose doctype uses any other casing (here
`<!doctype html>`) yields no artifact and the full text stays as the
assistant message, even though the case-insensitive bare pattern (a
doctype with a closing `</html>` after it) does match that text; the
last conjunct shows a full Research turn completing with the artifact
flag off and the full text kept. -/
theorem artifact_doctype_gate :
    (∀ fr : String, containsSub doctypeCS fr.data = false →
        extractArtifact fr = (false, fr))
    ∧ (∀ fr : String, (extractArtifact fr).1 = true →
        containsSub doctypeCS fr.data = true)
    ∧ (extractArtifact ("Overview. <!doctype html><html><h1>T</h1></html>")
        = (false, "Overview. <!doctype html><html><h1>T</h1></html>")
      ∧ bareHtmlMatch ("Overview. <!doctype html><html><h1>T</h1></html>").data = true)
    ∧ ((agentRun ⟨5, false, [], fun _ => false,
          fun i => if i = 1 then .ok ⟨"", "", [⟨"a", "start_research", none⟩], 0⟩
            else .ok ⟨"", "", [⟨"b", "stop_answer", none⟩], 0⟩,
          .ok ⟨"", "Overview. <!doctype html><html><h1>T</h1></html>", [], 0⟩,
          fun _ => .ok "unused"⟩).events
        = [.stageSwitch ("research"),
           .completeEv ("Overview. <!doctype html><html><h1>T</h1></html>") false []]) := by
  refine ⟨?_, ?_, ⟨?_, ?_⟩, rfl⟩
  · intro fr h
    rw [extractArtifact, h]
    rfl
  · intro fr h
    by_cases hg : containsSub doctypeCS fr.data = true
    · exact hg
    · rw [extractArtifact] at h
      rw [Bool.not_eq_true] at hg
      rw [hg] at h
      simp at h
  · decide
  · decide

/-- Witness for C10 at concrete final texts. -/
theorem artifact_doctype_gate_witness :
    extractArtifact ("no doctype here") = (false, "no doctype here")
    ∧ containsSub doctypeCS ("<!DOCTYPE html><h1>A</h1></html>").data = true :=
  ⟨artifact_doctype_gate.1 ("no doctype here") (by decide),
   artifact_doctype_gate.2.1 ("<!DOCTYPE html><h1>A</h1></html>") (by decide)⟩

theorem userSplitGo_snd_le (msgs : List LogMsg) (K : Nat) :
    ∀ i cnt, i ≤ msgs.length → (userSplitGo msgs K i cnt).2 ≤ msgs.length := by
  intro i
  induction i with
  | zero =>
    intro cnt _
    exact le_refl _
  | succ n ih =>
    intro cnt hle
    rw [userSplitGo]
    by_cases hu : (msgs.getD n ⟨"", none, none, none⟩).role = "user"
    · rw [if_pos hu]
      by_cases hk : cnt + 1 = K
      · rw [if_pos hk]
        exact le_of_lt (by omega)
      · rw [if_neg hk]
        exact ih _ (by omega)
    · rw [if_neg hu]
      exact ih _ (by omega)

theorem userSplitGo_all_users (msgs : List LogMsg) (K : Nat) :
    ∀ i cnt,
      cnt + ((msgs.take i).filter (fun m => m.role = "user")).length < K →
      userSplitGo msgs K i cnt
        = (cnt + ((msgs.take i).filter (fun m => m.role = "user")).length, msgs.length) := by
  intro i
  induction i with
  | zero =>
    intro cnt h
    simp [userSplitGo]
  | succ n ih =>
    intro cnt h
    rw [userSplitGo]
    by_cases hlen : n < msgs.length
    · have htake : msgs.take (n + 1) = msgs.take n ++ [msgs[n]] := by
        rw [List.take_succ]
        simp [List.getElem?_eq_getElem hlen]
      by_cases hu : (msgs.getD n ⟨"", none, none, none⟩).role = "user"
      · have hu2 : msgs[n].role = "user" := by
          rwa [List.getD_eq_getElem _ _ hlen] at hu
        have hflen : ((msgs.take (n + 1)).filter (fun m => m.role = "user")).length
            = ((msgs.take n).filter (fun m => m.role = "user")).length + 1 := by
          rw [htake, List.filter_append]
          simp [hu2]
        rw [hflen] at h ⊢
        rw [if_pos hu, if_neg (by omega), ih (cnt + 1) (by omega)]
        have harith : cnt + 1 + ((msgs.take n).filter (fun m => m.role = "user")).length
            = cnt + (((msgs.take n).filter (fun m => m.role = "user")).length + 1) := by
          omega
        rw [harith]
      · have hu2 : ¬ (msgs[n].role = "user") := by
          rwa [List.getD_eq_getElem _ _ hlen] at hu
        have hflen : ((msgs.take (n + 1)).filter (fun m => m.role = "user")).length
            = ((msgs.take n).filter (fun m => m.role = "user")).length := by
          rw [htake, List.filter_append]
          simp [hu2]
        rw [hflen] at h ⊢
        rw [if_neg hu, ih cnt (by omega)]
    · have hu : ¬ ((msgs.getD n ⟨"", none, none, none⟩).role = "user") := by
        rw [List.getD_eq_default _ _ (by omega)]
        simp
      have hflen : ((msgs.take (n + 1)).filter (fun m => m.role = "user")).length
          = ((msgs.take n).filter (fun m => m.role = "user")).length := by
        rw [List.take_of_length_le (by omega), List.take_of_length_le (by omega)]
      rw [hflen] at h ⊢
      rw [if_neg hu, ih cnt (by omega)]

theorem compactContext_noop_of_few_users (K : Nat) (digest confirm : String)
    (msgs : List LogMsg)
    (h : (msgs.filter (fun m => m.role = "user")).length < K) :
    compactContext K digest confirm msgs = msgs := by
  rw [compactContext]
  by_cases h3 : msgs.length ≤ 3
  · rw [if_pos h3]
  · rw [if_neg h3]
    have hgo := userSplitGo_all_users msgs K msgs.length 0
      (by rw [List.take_length]; omega)
    rw [List.take_length] at hgo
    have hcs : (compactSplit msgs K).1 < K := by
      rw [compactSplit, hgo]
      simpa using h
    rw [if_pos hcs]

/-- C3 counterexample: on a log whose old span holds fewer than four
messages, successful compaction makes the log longer, not strictly
shorter, and the trailing user message reads
`Good. Please continue your work.`, not `Please continue your work.`. -/
theorem compaction_rewrite_counterexample :
    compactContext 10 ("DIGEST") ("OK")
        ([⟨"system", some ("sys"), none, none⟩, ⟨"assistant", some ("a0"), none, none⟩]
          ++ List.replicate 10 (⟨"user", some ("q"), none, none⟩ : LogMsg))
      = [⟨"system", some ("sys"), none, none⟩, summaryMsg ("DIGEST"), confirmMsg ("OK")]
          ++ List.replicate 10 (⟨"user", some ("q"), none, none⟩ : LogMsg) ++ [continueMsg]
    ∧ ¬ ((compactContext 10 ("DIGEST") ("OK")
        ([⟨"system", some ("sys"), none, none⟩, ⟨"assistant", some ("a0"), none, none⟩]
          ++ List.replicate 10 (⟨"user", some ("q"), none, none⟩ : LogMsg))).length
      < (([⟨"system", some ("sys"), none, none⟩, ⟨"assistant", some ("a0"), none, none⟩]
            : List LogMsg)
          ++ List.replicate 10 (⟨"user", some ("q"), none, none⟩ : LogMsg)).length)
    ∧ continueMsg.content = some ("Good. Please continue your work.")
    ∧ ("Good. Please continue your work.") ≠ ("Please continue your work.") := by
  refine ⟨by decide, by decide, rfl, by decide⟩

/-- C3 amended: when compaction proceeds (more than three messages, at
least `K` user messages, non-empty old span), the log is rewritten to the
system messages, one user message containing the digest, one assistant
confirmation, the unchanged RECENT suffix, and one user message reading
`Good. Please continue your work.`; the rewritten log is strictly shorter
exactly when the replaced old span holds more than three messages; with
fewer than `K` user messages compaction is a no-op. -/
theorem compaction_rewrite_amended (K : Nat) (digest confirm : String)
    (msgs : List LogMsg)
    (h1 : ¬ msgs.length ≤ 3)
    (h2 : ¬ (compactSplit msgs K).1 < K)
    (h3 : (compactOld msgs K).isEmpty = false) :
    compactContext K digest confirm msgs
      = compactSystem msgs ++ [summaryMsg digest, confirmMsg confirm]
          ++ compactRecent msgs K ++ [continueMsg]
    ∧ compactRecent msgs K = msgs.drop (compactSplit msgs K).2
    ∧ continueMsg.content = some ("Good. Please continue your work.")
    ∧ containsSub digest.data (((summaryMsg digest).content.getD "").data) = true
    ∧ ((compactContext K digest confirm msgs).length < msgs.length
        ↔ 3 < (compactOld msgs K).length)
    ∧ (∀ ms : List LogMsg, (ms.filter (fun m => m.role = "user")).length < K →
        compactContext K digest confirm ms = ms) := by
  have heq : compactContext K digest confirm msgs
      = compactSystem msgs ++ [summaryMsg digest, confirmMsg confirm]
          ++ compactRecent msgs K ++ [continueMsg] := by
    rw [compactContext, if_neg h1, if_neg h2, if_neg (by simp [h3])]
  have hsplit_le : (compactSplit msgs K).2 ≤ msgs.length :=
    userSplitGo_snd_le msgs K msgs.length 0 (le_refl _)
  refine ⟨heq, rfl, rfl, ?_, ?_, compactContext_noop_of_few_users K digest confirm⟩
  · rw [summaryMsg]
    simp only [Option.getD_some]
    apply (containsSub_iff _ _).mpr
    refine ⟨("📋 **[Context Summary - Previous Conversation]**\n\n").data,
      ("\n\n---\nPlease review the above summary and confirm your understanding of previous work.").data, ?_⟩
    rw [String.data_append, String.data_append]
  · rw [heq]
    have hold : (compactOld msgs K).length
        = (compactSplit msgs K).2 - (compactSystem msgs).length := by
      rw [compactOld, List.length_drop, List.length_take,
        Nat.min_eq_left hsplit_le]
    have hrec : (compactRecent msgs K).length = msgs.length - (compactSplit msgs K).2 := by
      rw [compactRecent, List.length_drop]
    simp only [List.length_append, List.length_cons, List.length_nil]
    rw [hold, hrec]
    omega

/-- Witness for the C3 amended theorem on a concrete fifteen-message log
whose old span holds four messages. -/
theorem compaction_rewrite_amended_witness :
    compactContext 10 ("D") ("C")
        ([⟨"system", some ("s"), none, none⟩]
          ++ List.replicate 4 (⟨"assistant", some ("a"), none, none⟩ : LogMsg)
          ++ List.replicate 10 (⟨"user", some ("q"), none, none⟩ : LogMsg))
      = compactSystem ([⟨"system", some ("s"), none, none⟩]
          ++ List.replicate 4 (⟨"assistant", some ("a"), none, none⟩ : LogMsg)
          ++ List.replicate 10 (⟨"user", some ("q"), none, none⟩ : LogMsg))
        ++ [summaryMsg ("D"), confirmMsg ("C")]
        ++ compactRecent ([⟨"system", some ("s"), none, none⟩]
          ++ List.replicate 4 (⟨"assistant", some ("a"), none, none⟩ : LogMsg)
          ++ List.replicate 10 (⟨"user", some ("q"), none, none⟩ : LogMsg)) 10
        ++ [continueMsg]
    ∧ ((compactContext 10 ("D") ("C")
        ([⟨"system", some ("s"), none, none⟩]
          ++ List.replicate 4 (⟨"assistant", some ("a"), none, none⟩ : LogMsg)
          ++ List.replicate 10 (⟨"user", some ("q"), none, none⟩ : LogMsg))).length
      < (([⟨"system", some ("s"), none, none⟩] : List LogMsg)
          ++ List.replicate 4 (⟨"assistant", some ("a"), none, none⟩ : LogMsg)
          ++ List.replicate 10 (⟨"user", some ("q"), none, none⟩ : LogMsg)).length
      ↔ 3 < (compactOld ([⟨"system", some ("s"), none, none⟩]
          ++ List.replicate 4 (⟨"assistant", some ("a"), none, none⟩ : LogMsg)
          ++ List.replicate 10 (⟨"user", some ("q"), none, none⟩ : LogMsg)) 10).length) :=
  ⟨(compaction_rewrite_amended 10 ("D") ("C")
      ([⟨"system", some ("s"), none, none⟩]
        ++ List.replicate 4 (⟨"assistant", some ("a"), none, none⟩ : LogMsg)
        ++ List.replicate 10 (⟨"user", some ("q"), none, none⟩ : LogMsg))
      (by decide) (by decide) (by decide)).1,
   (compaction_rewrite_amended 10 ("D") ("C")
      ([⟨"system", some ("s"), none, none⟩]
        ++ List.replicate 4 (⟨"assistant", some ("a"), none, none⟩ : LogMsg)
        ++ List.replicate 10 (⟨"user", some ("q"), none, none⟩ : LogMsg))
      (by decide) (by decide) (by decide)).2.2.2.2.1⟩
